import Mathlib

/-!
# Airbrake handler of `emperror`

A shallow embedding of `airbrake/handler.go`: the `Handler` type, `NewHandler`,
`Handler.Handle` and `Handler.Close`.

The handler is glue around three collaborators:

* the `gobrake` notifier client, an external library.  Its behaviour is a parameter
  (`gobrake.Client`): every method is a function on an abstract library state, and every
  call made through the handler is recorded in a call log, the way a recording test double
  would;
* the `emperror` helpers `HttpRequest`, `ExposeStackTrace` and `Context`;
* the `keyvals.ToMap` converter.

The helpers belong to the repository but their source files are not part of the fragment
at hand, so they are modelled from the specification.
-/

namespace Go

/-- A Go `interface{}` value, as far as the handler can meet one in a context sequence. -/
inductive Value where
  | nil
  | bool (b : Bool)
  | int (n : Int)
  | str (s : String)
  deriving DecidableEq

/-- A `*http.Request`; the handler only passes it along. -/
structure Request where
  Method : String
  URL : String
  deriving DecidableEq

/-- A stack trace: the program counters of its frames. -/
abbrev StackTrace := List Nat

/-- A Go `map[string]interface{}`: an association list that holds every key at most once.
The nil map and the empty map are both `[]`. -/
abbrev StringMap := List (String × Value)

/-- Reading of `m[k]`. -/
def StringMap.get (m : StringMap) (k : String) : Option Value :=
  List.lookup k m

/-- Assignment `m[k] = v`: an earlier entry for `k` is overwritten. -/
def StringMap.set (m : StringMap) (k : String) (v : Value) : StringMap :=
  (k, v) :: m.filter (fun p => p.1 != k)

/-- The keys of a map. -/
def StringMap.keys (m : StringMap) : List String :=
  m.map Prod.fst

end Go

namespace emperror

open Go

/-- Modelled from the spec: the Go `error` values the handler receives (the error types of
`emperror` are not part of the fragment).  The spec describes an error only through what the
error-context utility can extract from it: an associated HTTP request ("none" when absent),
a stack trace embedded in the error, the stack trace visible on its outer representation,
and an ordered sequence of alternating keys and values (empty when there is none). -/
structure Error where
  msg : String
  request : Option Request
  stack : Option StackTrace
  exposed : Option StackTrace
  context : List Value
  deriving DecidableEq

/-- Modelled from the spec: `emperror.HttpRequest`, missing from the fragment.  "Extract an
HTTP request association from an error, returning none when absent"; the second result says
whether a request was found. -/
def HttpRequest (err : Error) : Option Request × Bool :=
  (err.request, err.request.isSome)

/-- Modelled from the spec: `emperror.ExposeStackTrace`, missing from the fragment.
"Expose/attach a stack trace onto an error's outer representation when one exists"; an error
without an embedded stack trace is returned as it is. -/
def ExposeStackTrace (err : Error) : Error :=
  match err.stack with
  | none => err
  | some st => { err with exposed := some st }

/-- Modelled from the spec: `emperror.Context`, missing from the fragment.  "Extract an
ordered sequence of alternating keys and values representing structured context from an
error, returning an empty sequence when none exists". -/
def Context (err : Error) : List Value :=
  err.context

end emperror

namespace keyvals

open Go

/-- Modelled from the spec: the name under which `keyvals.ToMap` files a key.  The mapping is
string-keyed, so a string key is its own name; the spec leaves every other key to the
helper, and here such a key is named by its printed form. -/
def keyName : Value → String
  | .str s => s
  | .int n => toString n
  | .bool b => toString b
  | .nil => "<nil>"

/-- The loop of `ToMap`: the pairs are written into the map front to back. -/
def ToMap.loop : List Value → StringMap → StringMap
  | k :: v :: rest, m => ToMap.loop rest (m.set (keyName k) v)
  | [k], m => m.set (keyName k) Value.nil
  | [], m => m

/-- Modelled from the spec: `keyvals.ToMap`, missing from the fragment.  "Turn the
alternating key/value sequence into a string-keyed mapping", "last write wins on duplicate
keys".  The spec does not say what becomes of a trailing key without a value; here it is
bound to nil, the missing value. -/
def ToMap (kvs : List Value) : StringMap :=
  ToMap.loop kvs []

/-- The keys of an alternating key/value sequence, as the values they are: the entries at
the even positions, in order. -/
def rawKeys : List Value → List Value
  | k :: _ :: rest => k :: rawKeys rest
  | [k] => [k]
  | [] => []

/-- The key names of an alternating key/value sequence, in order. -/
def keysOf : List Value → List String
  | k :: _ :: rest => keyName k :: keysOf rest
  | [k] => [keyName k]
  | [] => []

/-- The (key name, value) pairs of an alternating key/value sequence, in order. -/
def pairsOf : List Value → List (String × Value)
  | k :: v :: rest => (keyName k, v) :: pairsOf rest
  | [k] => [(keyName k, Value.nil)]
  | [] => []

end keyvals

namespace gobrake

open Go emperror

/-- Modelled from the spec: `gobrake.Notice`, a type of the external client.  The handler
reads and writes the `Params` field only ("an optional mapping of string keys to arbitrary
values"); `Body` stands for everything else the client put into the notice. -/
structure Notice where
  Body : String
  Params : StringMap
  deriving DecidableEq

/-- The `gobrake` client library, which is not part of the repository: `σ` is the state of
the library (its notifiers, queues and network), `N` is a `*gobrake.Notifier`.  Each method
takes the state and returns its result with the new state. -/
structure Client (σ N : Type) where
  NewNotifier : Int → String → σ → N × σ
  Notice : N → Error → Option Request → Int → σ → gobrake.Notice × σ
  SendNotice : N → gobrake.Notice → σ → (String × Option Error) × σ
  SendNoticeAsync : N → gobrake.Notice → σ → σ
  Close : N → σ → Option Error × σ

/-- One call into the client, with its arguments. -/
inductive Call (N : Type) where
  | NewNotifier (projectID : Int) (projectKey : String)
  | Notice (n : N) (err : Error) (req : Option Request) (depth : Int)
  | SendNotice (n : N) (notice : gobrake.Notice)
  | SendNoticeAsync (n : N) (notice : gobrake.Notice)
  | Close (n : N)
  deriving DecidableEq

/-- The world the handler runs in: the state of the client library and the log of the calls
made into it, oldest first. -/
structure World (σ N : Type) where
  lib : σ
  calls : List (Call N)

variable {σ N : Type}

/-- The calls made on the way from the world `w` to the world `w1`. -/
def World.callsSince (w1 w : World σ N) : List (Call N) :=
  w1.calls.drop w.calls.length

/-- Whether a call is a call of the notice constructor `Notifier.Notice`. -/
def Call.isNotice : Call N → Bool
  | .Notice _ _ _ _ => true
  | _ => false

/-- Whether a call is a call of the blocking `Notifier.SendNotice`. -/
def Call.isSendNotice : Call N → Bool
  | .SendNotice _ _ => true
  | _ => false

/-- Whether a call is a call of `Notifier.SendNoticeAsync`. -/
def Call.isSendNoticeAsync : Call N → Bool
  | .SendNoticeAsync _ _ => true
  | _ => false

/-- Whether a call is a call of `Notifier.Close`. -/
def Call.isClose : Call N → Bool
  | .Close _ => true
  | _ => false

/-- The notices handed to `SendNotice` or `SendNoticeAsync` in a log, in order. -/
def sentNotices : List (Call N) → List gobrake.Notice
  | [] => []
  | .SendNotice _ notice :: cs => notice :: sentNotices cs
  | .SendNoticeAsync _ notice :: cs => notice :: sentNotices cs
  | _ :: cs => sentNotices cs

/-- The errors given to the notice constructor in a log, in order. -/
def noticeErrs : List (Call N) → List Error
  | [] => []
  | .Notice _ err _ _ :: cs => err :: noticeErrs cs
  | _ :: cs => noticeErrs cs

/-- The requests given to the notice constructor in a log, in order. -/
def noticeReqs : List (Call N) → List (Option Request)
  | [] => []
  | .Notice _ _ req _ :: cs => req :: noticeReqs cs
  | _ :: cs => noticeReqs cs

/-- The skip-frames arguments given to the notice constructor in a log, in order. -/
def noticeDepths : List (Call N) → List Int
  | [] => []
  | .Notice _ _ _ depth :: cs => depth :: noticeDepths cs
  | _ :: cs => noticeDepths cs

/-- Calling `gobrake.NewNotifier`. -/
def callNewNotifier (g : Client σ N) (projectID : Int) (projectKey : String)
    (w : World σ N) : N × World σ N :=
  let r := g.NewNotifier projectID projectKey w.lib
  (r.1, ⟨r.2, w.calls ++ [Call.NewNotifier projectID projectKey]⟩)

/-- Calling `Notifier.Notice`. -/
def callNotice (g : Client σ N) (n : N) (err : Error) (req : Option Request) (depth : Int)
    (w : World σ N) : gobrake.Notice × World σ N :=
  let r := g.Notice n err req depth w.lib
  (r.1, ⟨r.2, w.calls ++ [Call.Notice n err req depth]⟩)

/-- Calling `Notifier.SendNotice`. -/
def callSendNotice (g : Client σ N) (n : N) (notice : gobrake.Notice)
    (w : World σ N) : (String × Option Error) × World σ N :=
  let r := g.SendNotice n notice w.lib
  (r.1, ⟨r.2, w.calls ++ [Call.SendNotice n notice]⟩)

/-- Calling `Notifier.SendNoticeAsync`. -/
def callSendNoticeAsync (g : Client σ N) (n : N) (notice : gobrake.Notice)
    (w : World σ N) : World σ N :=
  ⟨g.SendNoticeAsync n notice w.lib, w.calls ++ [Call.SendNoticeAsync n notice]⟩

/-- Calling `Notifier.Close`. -/
def callClose (g : Client σ N) (n : N) (w : World σ N) : Option Error × World σ N :=
  let r := g.Close n w.lib
  (r.1, ⟨r.2, w.calls ++ [Call.Close n]⟩)

end gobrake

namespace airbrake

open Go emperror gobrake

variable {σ N : Type}

/-- The type `Handler`. -/
structure Handler (N : Type) where
  Notifier : N
  SendSynchronously : Bool
  deriving DecidableEq

/-- The function `NewHandler`: the flag is left at its zero value. -/
def NewHandler (g : Client σ N) (projectID : Int) (projectKey : String)
    (w : World σ N) : Handler N × World σ N :=
  let r := callNewNotifier g projectID projectKey w
  ({ Notifier := r.1, SendSynchronously := false }, r.2)

/-- The method `Handler.Handle`.  It has no result; the handler behind the pointer receiver
is returned with the world. -/
def Handle (g : Client σ N) (h : Handler N) (err : Error)
    (w : World σ N) : Handler N × World σ N :=
  let req := (HttpRequest err).1
  let err := ExposeStackTrace err
  let r := callNotice g h.Notifier err req 1 w
  let notice := r.1
  let w := r.2
  let kvs := Context err
  let notice := if kvs.length > 0 then { notice with Params := keyvals.ToMap kvs } else notice
  if h.SendSynchronously then
    let s := callSendNotice g h.Notifier notice w
    (h, s.2)
  else
    (h, callSendNoticeAsync g h.Notifier notice w)

/-- The method `Handler.Close`: the result of the notifier's `Close`, the handler and the
world. -/
def Close (g : Client σ N) (h : Handler N) (w : World σ N) :
    Option Error × Handler N × World σ N :=
  let r := callClose g h.Notifier w
  (r.1, h, r.2)

/-- A recording double of the client for concrete runs: the library state counts the
deliveries, a notice takes its body from the error and, like a client that reads the
request, one parameter from the request when there is one; `SendNotice` and `Close` return
`outcome`. -/
def recorder (outcome : Option Error) : Client Nat Nat where
  NewNotifier := fun projectID _ s => (projectID.toNat, s)
  Notice := fun _ err req _ s =>
    (⟨err.msg, match req with
      | none => []
      | some r => [("url", Value.str r.URL)]⟩, s)
  SendNotice := fun _ _ s => (("", outcome), s + 1)
  SendNoticeAsync := fun _ _ s => s + 1
  Close := fun _ s => (outcome, s)

/-- A client whose notice constructor stamps every notice with a parameter of its own,
request or not; otherwise like `recorder none`. -/
def stamper : Client Nat Nat where
  NewNotifier := fun projectID _ s => (projectID.toNat, s)
  Notice := fun _ err _ _ s => (⟨err.msg, [("hostname", Value.str "web-1")]⟩, s)
  SendNotice := fun _ _ s => (("", none), s + 1)
  SendNoticeAsync := fun _ _ s => s + 1
  Close := fun _ s => (none, s)

/-- A plain error: no request, no stack trace, no context. -/
def plainError : Error :=
  { msg := "boom", request := none, stack := none, exposed := none, context := [] }

/-- An error with a request, a stack trace and a context of two pairs. -/
def richError : Error :=
  { msg := "boom", request := some ⟨"GET", "/items"⟩, stack := some [3, 2, 1],
    exposed := none, context := [.str "user", .int 7, .str "op", .str "list"] }

/-- An error whose context has two different keys with one name: the string `"7"` and the
number `7`. -/
def clashError : Error :=
  { msg := "boom", request := none, stack := none, exposed := none,
    context := [.str "7", .str "a", .int 7, .str "b"] }

/-- The world before anything was called. -/
def startWorld : World Nat Nat :=
  ⟨0, []⟩

/-- A handler in asynchronous mode, as `NewHandler` makes it. -/
def asyncHandler : Handler Nat :=
  ⟨5, false⟩

/-- A handler switched to synchronous mode. -/
def syncHandler : Handler Nat :=
  ⟨5, true⟩

/-- A delivery failure. -/
def sendFailure : Error :=
  { msg := "unauthorized", request := none, stack := none, exposed := none, context := [] }

end airbrake

/-! ## Map lemmas -/

namespace Go

theorem StringMap.lookup_filter_ne (m : StringMap) (k k1 : String) (hk : k1 ≠ k) :
    List.lookup k1 (m.filter (fun p => p.1 != k)) = List.lookup k1 m := by
  induction m with
  | nil => rfl
  | cons p m ih =>
    obtain ⟨a, b⟩ := p
    by_cases ha : a = k
    · subst ha
      have hne : (k1 == a) = false := by simpa using hk
      simp [List.filter_cons, List.lookup_cons, hne, ih]
    · have hb : (a != k) = true := by simpa using ha
      by_cases hk1 : k1 = a
      · subst hk1
        simp [List.filter_cons, List.lookup_cons, hb]
      · have hne1 : (k1 == a) = false := by simpa using hk1
        simp [List.filter_cons, List.lookup_cons, hb, hne1, ih]

theorem StringMap.get_set (m : StringMap) (k : String) (v : Value) (k1 : String) :
    (m.set k v).get k1 = if k1 = k then some v else m.get k1 := by
  unfold StringMap.set StringMap.get
  by_cases hk : k1 = k
  · subst hk
    simp [List.lookup_cons]
  · have hne : (k1 == k) = false := by simpa using hk
    simp only [List.lookup_cons, hne, hk, if_false]
    exact StringMap.lookup_filter_ne m k k1 hk

theorem StringMap.mem_keys_iff (m : StringMap) (k : String) :
    k ∈ m.keys ↔ (m.get k).isSome = true := by
  unfold StringMap.keys StringMap.get
  induction m with
  | nil => simp
  | cons p m ih =>
    obtain ⟨a, b⟩ := p
    by_cases hk : k = a
    · subst hk
      simp [List.lookup]
    · have hne : (k == a) = false := by simpa using hk
      simp [List.lookup, hne, hk, ih]

end Go

/-! ## The converted map -/

namespace keyvals

open Go

theorem mem_keysOf_of_mem_pairsOf : ∀ (kvs : List Value) (k : String) (v : Value),
    (k, v) ∈ pairsOf kvs → k ∈ keysOf kvs
  | [], _, _, h => by simp [pairsOf] at h
  | [a], _, _, h => by
    simp only [pairsOf, List.mem_singleton, Prod.mk.injEq] at h
    simp [keysOf, h.1]
  | a :: b :: rest, k, v, h => by
    simp only [pairsOf, List.mem_cons, Prod.mk.injEq] at h
    simp only [keysOf, List.mem_cons]
    rcases h with h | h
    · exact Or.inl h.1
    · exact Or.inr (mem_keysOf_of_mem_pairsOf rest k v h)

theorem exists_mem_pairsOf_of_mem_keysOf : ∀ (kvs : List Value) (k : String),
    k ∈ keysOf kvs → ∃ v, (k, v) ∈ pairsOf kvs
  | [], _, h => by simp [keysOf] at h
  | [a], k, h => by
    simp only [keysOf, List.mem_singleton] at h
    exact ⟨Value.nil, by simp [pairsOf, h]⟩
  | a :: b :: rest, k, h => by
    simp only [keysOf, List.mem_cons] at h
    rcases h with h | h
    · exact ⟨b, by simp [pairsOf, h]⟩
    · obtain ⟨v, hv⟩ := exists_mem_pairsOf_of_mem_keysOf rest k h
      exact ⟨v, by simp [pairsOf, hv]⟩

theorem loop_get_of_not_mem : ∀ (kvs : List Value) (m : StringMap) (k : String),
    k ∉ keysOf kvs → (ToMap.loop kvs m).get k = m.get k
  | [], _, _, _ => rfl
  | [a], m, k, h => by
    simp only [keysOf, List.mem_singleton] at h
    simp only [ToMap.loop]
    rw [StringMap.get_set, if_neg h]
  | a :: b :: rest, m, k, h => by
    simp only [keysOf, List.mem_cons, not_or] at h
    simp only [ToMap.loop]
    rw [loop_get_of_not_mem rest _ k h.2, StringMap.get_set, if_neg h.1]

theorem loop_get_of_mem : ∀ (kvs : List Value) (m : StringMap) (k : String) (v : Value),
    (keysOf kvs).Nodup → (k, v) ∈ pairsOf kvs → (ToMap.loop kvs m).get k = some v
  | [], _, _, _, _, h => by simp [pairsOf] at h
  | [a], m, k, v, _, h => by
    simp only [pairsOf, List.mem_singleton, Prod.mk.injEq] at h
    simp only [ToMap.loop]
    rw [StringMap.get_set, if_pos h.1, h.2]
  | a :: b :: rest, m, k, v, hnd, h => by
    simp only [keysOf, List.nodup_cons] at hnd
    simp only [pairsOf, List.mem_cons, Prod.mk.injEq] at h
    simp only [ToMap.loop]
    rcases h with ⟨hk, hv⟩ | h
    · subst hk
      subst hv
      rw [loop_get_of_not_mem rest _ _ hnd.1, StringMap.get_set, if_pos rfl]
    · exact loop_get_of_mem rest _ k v hnd.2 h

theorem loop_mem_keys : ∀ (kvs : List Value) (m : StringMap) (k : String),
    k ∈ (ToMap.loop kvs m).keys ↔ k ∈ keysOf kvs ∨ k ∈ m.keys
  | [], _, _ => by simp [ToMap.loop, keysOf]
  | [a], m, k => by
    simp only [ToMap.loop, keysOf, List.mem_singleton]
    rw [StringMap.mem_keys_iff (m.set (keyName a) Value.nil), StringMap.get_set,
      StringMap.mem_keys_iff m]
    by_cases hk : k = keyName a
    · simp [hk]
    · simp [hk]
  | a :: b :: rest, m, k => by
    simp only [ToMap.loop, keysOf, List.mem_cons]
    rw [loop_mem_keys rest _ k, StringMap.mem_keys_iff (m.set (keyName a) b),
      StringMap.get_set, StringMap.mem_keys_iff m]
    by_cases hk : k = keyName a
    · simp [hk]
    · simp [hk]

theorem ToMap_mem_keys (kvs : List Value) (k : String) :
    k ∈ (ToMap kvs).keys ↔ k ∈ keysOf kvs := by
  unfold ToMap
  rw [loop_mem_keys]
  simp [StringMap.keys]

theorem ToMap_get_of_mem (kvs : List Value) (k : String) (v : Value)
    (hnd : (keysOf kvs).Nodup) (h : (k, v) ∈ pairsOf kvs) : (ToMap kvs).get k = some v :=
  loop_get_of_mem kvs [] k v hnd h

theorem ToMap_get_iff (kvs : List Value) (k : String) (v : Value)
    (hnd : (keysOf kvs).Nodup) : (ToMap kvs).get k = some v ↔ (k, v) ∈ pairsOf kvs := by
  constructor
  · intro h
    have hk : k ∈ keysOf kvs := by
      rw [← ToMap_mem_keys, StringMap.mem_keys_iff, h]
      rfl
    obtain ⟨v1, hv1⟩ := exists_mem_pairsOf_of_mem_keysOf kvs k hk
    have h1 := ToMap_get_of_mem kvs k v1 hnd hv1
    rw [h] at h1
    cases h1
    exact hv1
  · exact ToMap_get_of_mem kvs k v hnd

theorem mem_pairsOf_of_getElem : ∀ (kvs : List Value) (i : Nat) (k v : Value),
    kvs[2 * i]? = some k → kvs[2 * i + 1]? = some v → (keyName k, v) ∈ pairsOf kvs
  | [], i, k, v, h, _ => by simp at h
  | [_], i, k, v, _, h => by simp at h
  | a :: b :: rest, 0, k, v, h0, h1 => by
    simp at h0 h1
    subst h0
    subst h1
    simp [pairsOf]
  | a :: b :: rest, i + 1, k, v, h0, h1 => by
    have e0 : 2 * (i + 1) = (2 * i) + 1 + 1 := by ring
    have e1 : 2 * (i + 1) + 1 = (2 * i + 1) + 1 + 1 := by ring
    rw [e0] at h0
    rw [e1] at h1
    simp only [List.getElem?_cons_succ] at h0 h1
    simp only [pairsOf, List.mem_cons]
    exact Or.inr (mem_pairsOf_of_getElem rest i k v h0 h1)

theorem mem_keysOf_iff_getElem : ∀ (kvs : List Value) (s : String),
    (s ∈ keysOf kvs ↔ ∃ i k, kvs[2 * i]? = some k ∧ keyName k = s)
  | [], s => by simp [keysOf]
  | [a], s => by
    simp only [keysOf, List.mem_singleton]
    constructor
    · intro h0
      exact ⟨0, a, by simp, h0.symm⟩
    · rintro ⟨i, k, hk, hs⟩
      cases i with
      | zero =>
        simp at hk
        subst hk
        exact hs.symm
      | succ j =>
        have e0 : 2 * (j + 1) = (2 * j + 1) + 1 := by ring
        rw [e0] at hk
        simp at hk
  | a :: b :: rest, s => by
    simp only [keysOf, List.mem_cons]
    rw [mem_keysOf_iff_getElem rest s]
    constructor
    · rintro (h0 | ⟨i, k, hk, hs⟩)
      · exact ⟨0, a, by simp, h0.symm⟩
      · refine ⟨i + 1, k, ?_, hs⟩
        have e0 : 2 * (i + 1) = (2 * i) + 1 + 1 := by ring
        rw [e0]
        simpa only [List.getElem?_cons_succ] using hk
    · rintro ⟨i, k, hk, hs⟩
      cases i with
      | zero =>
        simp at hk
        subst hk
        exact Or.inl hs.symm
      | succ j =>
        have e0 : 2 * (j + 1) = (2 * j) + 1 + 1 := by ring
        rw [e0] at hk
        simp only [List.getElem?_cons_succ] at hk
        exact Or.inr ⟨j, k, hk, hs⟩

theorem getElem_value_of_even (kvs : List Value) (heven : kvs.length % 2 = 0) (i : Nat)
    (k : Value) (hk : kvs[2 * i]? = some k) : ∃ v, kvs[2 * i + 1]? = some v := by
  have hlt : 2 * i < kvs.length := by
    by_contra hge
    rw [List.getElem?_eq_none (by omega)] at hk
    cases hk
  have hlt1 : 2 * i + 1 < kvs.length := by omega
  exact ⟨kvs[2 * i + 1], List.getElem?_eq_getElem hlt1⟩

end keyvals

/-! ## What `Handle` does -/

namespace airbrake

open Go emperror gobrake

variable {σ N : Type}

theorem Handle_handler (g : Client σ N) (h : Handler N) (err : Error) (w : World σ N) :
    (Handle g h err w).1 = h := by
  unfold Handle
  split <;> rfl

theorem Handle_calls (g : Client σ N) (h : Handler N) (err : Error) (w : World σ N) :
    ∃ nt : gobrake.Notice,
      (Handle g h err w).2.callsSince w =
        [Call.Notice h.Notifier (ExposeStackTrace err) (HttpRequest err).1 1,
          if h.SendSynchronously then Call.SendNotice h.Notifier nt
          else Call.SendNoticeAsync h.Notifier nt] ∧
      (Handle g h err w).2.lib =
        (if h.SendSynchronously then
          (g.SendNotice h.Notifier nt
            (g.Notice h.Notifier (ExposeStackTrace err) (HttpRequest err).1 1 w.lib).2).2
        else
          g.SendNoticeAsync h.Notifier nt
            (g.Notice h.Notifier (ExposeStackTrace err) (HttpRequest err).1 1 w.lib).2) ∧
      nt.Body = (g.Notice h.Notifier (ExposeStackTrace err) (HttpRequest err).1 1 w.lib).1.Body ∧
      nt.Params = if Context (ExposeStackTrace err) = [] then
          (g.Notice h.Notifier (ExposeStackTrace err) (HttpRequest err).1 1 w.lib).1.Params
        else keyvals.ToMap (Context (ExposeStackTrace err)) := by
  obtain ⟨s, cs⟩ := w
  by_cases hk : Context (ExposeStackTrace err) = []
  · refine ⟨(g.Notice h.Notifier (ExposeStackTrace err) (HttpRequest err).1 1 s).1,
      ?_, ?_, rfl, ?_⟩
    · unfold Handle
      cases hs : h.SendSynchronously <;>
        simp [hk, callNotice, callSendNotice, callSendNoticeAsync, World.callsSince]
    · unfold Handle
      cases hs : h.SendSynchronously <;>
        simp [hk, callNotice, callSendNotice, callSendNoticeAsync]
    · simp [hk]
  · have hpos : (Context (ExposeStackTrace err)).length > 0 :=
      List.length_pos_of_ne_nil hk
    refine ⟨{ (g.Notice h.Notifier (ExposeStackTrace err) (HttpRequest err).1 1 s).1 with
      Params := keyvals.ToMap (Context (ExposeStackTrace err)) }, ?_, ?_, rfl, ?_⟩
    · unfold Handle
      cases hs : h.SendSynchronously <;>
        simp [hpos, callNotice, callSendNotice, callSendNoticeAsync, World.callsSince]
    · unfold Handle
      cases hs : h.SendSynchronously <;>
        simp [hpos, callNotice, callSendNotice, callSendNoticeAsync]
    · simp [hk]

theorem Context_ExposeStackTrace (err : Error) :
    Context (ExposeStackTrace err) = Context err := by
  unfold ExposeStackTrace Context
  split <;> rfl

/-! ## The claims -/

/-- C1: `Handle` dispatches the notice it built exactly once.  With `SendSynchronously` set
the calls it makes hold one `SendNotice` and no `SendNoticeAsync`, otherwise one
`SendNoticeAsync` and no `SendNotice`; the one notice sent is the notice the constructor
returned (same body), the send is the last call, made on the handler's notifier, and the
library is left in the state that send produced. -/
theorem Handle_dispatches_once (g : Client σ N) (h : Handler N) (err : Error)
    (w : World σ N) :
    (((Handle g h err w).2.callsSince w).countP Call.isSendNotice =
      if h.SendSynchronously then 1 else 0) ∧
    (((Handle g h err w).2.callsSince w).countP Call.isSendNoticeAsync =
      if h.SendSynchronously then 0 else 1) ∧
    ∃ nt : gobrake.Notice,
      sentNotices ((Handle g h err w).2.callsSince w) = [nt] ∧
      nt.Body =
        (g.Notice h.Notifier (ExposeStackTrace err) (HttpRequest err).1 1 w.lib).1.Body ∧
      ((Handle g h err w).2.callsSince w).getLast? =
        some (if h.SendSynchronously then Call.SendNotice h.Notifier nt
          else Call.SendNoticeAsync h.Notifier nt) ∧
      (Handle g h err w).2.lib =
        (if h.SendSynchronously then
          (g.SendNotice h.Notifier nt
            (g.Notice h.Notifier (ExposeStackTrace err) (HttpRequest err).1 1 w.lib).2).2
        else
          g.SendNoticeAsync h.Notifier nt
            (g.Notice h.Notifier (ExposeStackTrace err) (HttpRequest err).1 1 w.lib).2) := by
  obtain ⟨nt, hc, hl, hb, _⟩ := Handle_calls g h err w
  rw [hc, hl]
  cases hs : h.SendSynchronously
  · exact ⟨by simp [List.countP_cons, Call.isSendNotice],
      by simp [List.countP_cons, Call.isSendNoticeAsync],
      nt, by simp [sentNotices], hb, by simp, by simp⟩
  · exact ⟨by simp [List.countP_cons, Call.isSendNotice],
      by simp [List.countP_cons, Call.isSendNoticeAsync],
      nt, by simp [sentNotices], hb, by simp, by simp⟩

/-- C2: `Close` calls the notifier's `Close` exactly once (it is the only call it makes) and
returns the result of that call unchanged: the same error value, and nil exactly when the
notifier returned nil.  The handler is left as it was. -/
theorem Close_returns_notifier_result (g : Client σ N) (h : Handler N) (w : World σ N) :
    (Close g h w).1 = (g.Close h.Notifier w.lib).1 ∧
    ((Close g h w).1 = none ↔ (g.Close h.Notifier w.lib).1 = none) ∧
    (Close g h w).2.2.callsSince w = [Call.Close h.Notifier] ∧
    ((Close g h w).2.2.callsSince w).countP Call.isClose = 1 ∧
    (Close g h w).2.2.lib = (g.Close h.Notifier w.lib).2 ∧
    (Close g h w).2.1 = h := by
  obtain ⟨s, cs⟩ := w
  simp [Close, callClose, World.callsSince, Call.isClose]

/-- C5: whatever the handler, the error and the flag, the calls `Handle` makes hold exactly
one call of the notice constructor, and its skip-frames argument is 1. -/
theorem Handle_notice_once_depth_one (g : Client σ N) (h : Handler N) (err : Error)
    (w : World σ N) :
    ((Handle g h err w).2.callsSince w).countP Call.isNotice = 1 ∧
    noticeDepths ((Handle g h err w).2.callsSince w) = [1] := by
  obtain ⟨nt, hc, _, _⟩ := Handle_calls g h err w
  rw [hc]
  cases hs : h.SendSynchronously <;>
    simp [List.countP_cons, Call.isNotice, noticeDepths]

/-- C8: `NewHandler` returns a handler with `SendSynchronously` false whose notifier is the
one `gobrake.NewNotifier` made from the very `projectID` and `projectKey` given; that
constructor call is the only call made.  The result is a handler, never a failure. -/
theorem NewHandler_result (g : Client σ N) (projectID : Int) (projectKey : String)
    (w : World σ N) :
    (NewHandler g projectID projectKey w).1.SendSynchronously = false ∧
    (NewHandler g projectID projectKey w).1.Notifier =
      (g.NewNotifier projectID projectKey w.lib).1 ∧
    (NewHandler g projectID projectKey w).2.callsSince w =
      [Call.NewNotifier projectID projectKey] ∧
    (NewHandler g projectID projectKey w).2.lib =
      (g.NewNotifier projectID projectKey w.lib).2 := by
  obtain ⟨s, cs⟩ := w
  simp [NewHandler, callNewNotifier, World.callsSince]

/-- C9: in synchronous mode the result of `SendNotice` is discarded.  For two clients with
the same notice constructor whose `SendNotice` leaves the library in the same state and
differs at most in the result it returns (success or failure), `Handle` ends in the same
handler and the same world, and the handler is the one it started from. -/
theorem Handle_discards_send_result (g1 g2 : Client σ N) (h : Handler N) (err : Error)
    (w : World σ N) (hsync : h.SendSynchronously = true) (hn : g1.Notice = g2.Notice)
    (hsend : ∀ n nt s, (g1.SendNotice n nt s).2 = (g2.SendNotice n nt s).2) :
    Handle g1 h err w = Handle g2 h err w ∧ (Handle g1 h err w).1 = h := by
  refine ⟨?_, Handle_handler g1 h err w⟩
  unfold Handle
  simp only [hsync, if_true, callNotice, callSendNotice, hn, hsend]

/-- C10: the `Params` of the dispatched notice.  When the context of the exposed error is
not empty, `Params` is the converted context map and nothing else (what the constructor
had put there is gone); when it is empty, `Params` is what the constructor returned. -/
theorem Handle_params (g : Client σ N) (h : Handler N) (err : Error) (w : World σ N) :
    (Context (ExposeStackTrace err) ≠ [] →
      (sentNotices ((Handle g h err w).2.callsSince w)).map Notice.Params =
        [keyvals.ToMap (Context (ExposeStackTrace err))]) ∧
    (Context (ExposeStackTrace err) = [] →
      (sentNotices ((Handle g h err w).2.callsSince w)).map Notice.Params =
        [(g.Notice h.Notifier (ExposeStackTrace err) (HttpRequest err).1 1
          w.lib).1.Params]) := by
  obtain ⟨nt, hc, _, _, hp⟩ := Handle_calls g h err w
  rw [hc]
  constructor
  · intro hne
    rw [if_neg hne] at hp
    cases hs : h.SendSynchronously <;> simp [sentNotices, hp]
  · intro he
    rw [if_pos he] at hp
    cases hs : h.SendSynchronously <;> simp [sentNotices, hp]

/-- C3, amended: for an error that carries a context sequence (not empty) of even length
whose keys have pairwise distinct names (the strings `ToMap` files them under; a string key
is its own name), the one notice `Handle` dispatches has a `Params` map whose keys are
exactly the key names of the sequence (of the entries at the even positions), in which
every key name is bound to the value that follows the key, and which has no other
binding. -/
theorem Handle_params_of_context (g : Client σ N) (h : Handler N) (err : Error)
    (w : World σ N) (heven : (Context err).length % 2 = 0) (hne : Context err ≠ [])
    (hnd : (keyvals.keysOf (Context err)).Nodup) :
    ∃ nt : gobrake.Notice,
      sentNotices ((Handle g h err w).2.callsSince w) = [nt] ∧
      (∀ s, s ∈ nt.Params.keys ↔
        ∃ i k, (Context err)[2 * i]? = some k ∧ keyvals.keyName k = s) ∧
      (∀ i k, (Context err)[2 * i]? = some k →
        ∃ v, (Context err)[2 * i + 1]? = some v ∧
          nt.Params.get (keyvals.keyName k) = some v) ∧
      (∀ s v, nt.Params.get s = some v ↔ (s, v) ∈ keyvals.pairsOf (Context err)) := by
  obtain ⟨nt, hc, _, _, hp⟩ := Handle_calls g h err w
  rw [Context_ExposeStackTrace, if_neg hne] at hp
  refine ⟨nt, ?_, ?_, ?_, ?_⟩
  · rw [hc]
    cases hs : h.SendSynchronously <;> simp [sentNotices]
  · intro s
    rw [hp, keyvals.ToMap_mem_keys, keyvals.mem_keysOf_iff_getElem]
  · intro i k hk
    obtain ⟨v, hv⟩ := keyvals.getElem_value_of_even _ heven i k hk
    refine ⟨v, hv, ?_⟩
    rw [hp]
    exact keyvals.ToMap_get_of_mem _ _ _ hnd (keyvals.mem_pairsOf_of_getElem _ i k v hk hv)
  · intro s v
    rw [hp]
    exact keyvals.ToMap_get_iff _ s v hnd

/-- C4, amended: for an error with no associated HTTP request and no context, `Handle`
calls the notice constructor with a nil request and dispatches one notice, which is the
notice the constructor returned, untouched: its `Params` map is exactly the constructor's
(empty whenever the constructor's is).  `Handle` runs to its end: it makes its two calls and
hands the handler back (it is a total function, with no failing result). -/
theorem Handle_plain_error (g : Client σ N) (h : Handler N) (err : Error) (w : World σ N)
    (hreq : (HttpRequest err).1 = none) (hctx : Context err = []) :
    noticeReqs ((Handle g h err w).2.callsSince w) = [none] ∧
    (∃ nt : gobrake.Notice,
      sentNotices ((Handle g h err w).2.callsSince w) = [nt] ∧
      nt = (g.Notice h.Notifier (ExposeStackTrace err) none 1 w.lib).1 ∧
      nt.Params = (g.Notice h.Notifier (ExposeStackTrace err) none 1 w.lib).1.Params ∧
      ((g.Notice h.Notifier (ExposeStackTrace err) none 1 w.lib).1.Params = [] →
        nt.Params = [])) ∧
    ((Handle g h err w).2.callsSince w).length = 2 ∧
    (Handle g h err w).1 = h := by
  obtain ⟨nt, hc, _, hb, hp⟩ := Handle_calls g h err w
  rw [Context_ExposeStackTrace, if_pos hctx, hreq] at hp
  rw [hreq] at hb
  rw [hc, hreq]
  have heq : nt = (g.Notice h.Notifier (ExposeStackTrace err) none 1 w.lib).1 := by
    cases nt
    cases hn : (g.Notice h.Notifier (ExposeStackTrace err) none 1 w.lib).1
    rw [hn] at hb hp
    simp only at hb hp
    rw [hb, hp]
  refine ⟨?_, ⟨nt, ?_, heq, hp, fun he => hp.trans he⟩, ?_, Handle_handler g h err w⟩
  · cases hs : h.SendSynchronously <;> simp [noticeReqs]
  · cases hs : h.SendSynchronously <;> simp [sentNotices]
  · simp

/-- C6: the error `Handle` gives to the notice constructor is `ExposeStackTrace` of the
input error; so for an error that wraps a stack trace, the error under the notice exposes
that very stack trace. -/
theorem Handle_exposes_stack_trace (g : Client σ N) (h : Handler N) (err : Error)
    (w : World σ N) :
    noticeErrs ((Handle g h err w).2.callsSince w) = [ExposeStackTrace err] ∧
    ∀ st, err.stack = some st →
      ∃ e, noticeErrs ((Handle g h err w).2.callsSince w) = [e] ∧ e.exposed = some st := by
  obtain ⟨nt, hc, _, _⟩ := Handle_calls g h err w
  have h1 : noticeErrs ((Handle g h err w).2.callsSince w) = [ExposeStackTrace err] := by
    rw [hc]
    cases hs : h.SendSynchronously <;> simp [noticeErrs]
  refine ⟨h1, ?_⟩
  intro st hst
  refine ⟨ExposeStackTrace err, h1, ?_⟩
  simp [ExposeStackTrace, hst]

/-- C7: the request `Handle` gives to the notice constructor is the request
`emperror.HttpRequest` returns for the input error: the carried request when the error has
one, nil when it has none.  The second result of `HttpRequest` plays no part, and with or
without a request `Handle` makes one constructor call and one send. -/
theorem Handle_passes_request (g : Client σ N) (h : Handler N) (err : Error)
    (w : World σ N) :
    noticeReqs ((Handle g h err w).2.callsSince w) = [(HttpRequest err).1] ∧
    (∀ r, err.request = some r →
      noticeReqs ((Handle g h err w).2.callsSince w) = [some r]) ∧
    (err.request = none → noticeReqs ((Handle g h err w).2.callsSince w) = [none]) ∧
    ((Handle g h err w).2.callsSince w).countP Call.isNotice = 1 ∧
    (sentNotices ((Handle g h err w).2.callsSince w)).length = 1 := by
  obtain ⟨nt, hc, _, _⟩ := Handle_calls g h err w
  have h1 : noticeReqs ((Handle g h err w).2.callsSince w) = [(HttpRequest err).1] := by
    rw [hc]
    cases hs : h.SendSynchronously <;> simp [noticeReqs]
  refine ⟨h1, ?_, ?_, ?_, ?_⟩
  · intro r hr
    rw [h1]
    simp [HttpRequest, hr]
  · intro hr
    rw [h1]
    simp [HttpRequest, hr]
  · rw [hc]
    cases hs : h.SendSynchronously <;> simp [List.countP_cons, Call.isNotice]
  · rw [hc]
    cases hs : h.SendSynchronously <;> simp [sentNotices]

/-! ## Concrete runs -/

/-- C3 at a concrete run: an error with the context `user, 7, op, "list"` sent through the
recording client. -/
theorem Handle_params_of_context_witness :
    (Context richError).length % 2 = 0 ∧ Context richError ≠ [] ∧
    (keyvals.keysOf (Context richError)).Nodup ∧
    ∃ nt : gobrake.Notice,
      sentNotices ((Handle (recorder none) asyncHandler richError startWorld).2.callsSince
        startWorld) = [nt] ∧
      (∀ s, s ∈ nt.Params.keys ↔
        ∃ i k, (Context richError)[2 * i]? = some k ∧ keyvals.keyName k = s) ∧
      (∀ i k, (Context richError)[2 * i]? = some k →
        ∃ v, (Context richError)[2 * i + 1]? = some v ∧
          nt.Params.get (keyvals.keyName k) = some v) ∧
      (∀ s v, nt.Params.get s = some v ↔ (s, v) ∈ keyvals.pairsOf (Context richError)) :=
  ⟨by decide, by decide, by decide,
    Handle_params_of_context (recorder none) asyncHandler richError startWorld
      (by decide) (by decide) (by decide)⟩

/-- C4 at a concrete run: the plain error sent through the recording client. -/
theorem Handle_plain_error_witness :
    (HttpRequest plainError).1 = none ∧ Context plainError = [] ∧
    noticeReqs ((Handle (recorder none) syncHandler plainError startWorld).2.callsSince
      startWorld) = [none] ∧
    (∃ nt : gobrake.Notice,
      sentNotices ((Handle (recorder none) syncHandler plainError startWorld).2.callsSince
        startWorld) = [nt] ∧
      nt = ((recorder none).Notice syncHandler.Notifier (ExposeStackTrace plainError)
        none 1 startWorld.lib).1 ∧
      nt.Params = ((recorder none).Notice syncHandler.Notifier (ExposeStackTrace plainError)
        none 1 startWorld.lib).1.Params ∧
      (((recorder none).Notice syncHandler.Notifier (ExposeStackTrace plainError)
        none 1 startWorld.lib).1.Params = [] → nt.Params = [])) ∧
    ((Handle (recorder none) syncHandler plainError startWorld).2.callsSince
      startWorld).length = 2 ∧
    (Handle (recorder none) syncHandler plainError startWorld).1 = syncHandler :=
  ⟨rfl, rfl,
    Handle_plain_error (recorder none) syncHandler plainError startWorld rfl rfl⟩

/-- C4 as stated fails: the plain error has no request and no context, yet with a client
whose constructor stamps a parameter into every notice, the notice `Handle` dispatches has
that parameter, so its `Params` map is not empty. -/
theorem Handle_plain_error_counterexample :
    (HttpRequest plainError).1 = none ∧ Context plainError = [] ∧
    sentNotices ((Handle stamper asyncHandler plainError startWorld).2.callsSince
      startWorld) = [⟨"boom", [("hostname", Value.str "web-1")]⟩] ∧
    ¬ ∃ nt : gobrake.Notice,
      sentNotices ((Handle stamper asyncHandler plainError startWorld).2.callsSince
        startWorld) = [nt] ∧ nt.Params = [] := by
  refine ⟨rfl, rfl, by decide, ?_⟩
  rintro ⟨nt, hs, hp⟩
  have hrun : sentNotices ((Handle stamper asyncHandler plainError startWorld).2.callsSince
      startWorld) = [⟨"boom", [("hostname", Value.str "web-1")]⟩] := by decide
  rw [hrun] at hs
  simp only [List.cons.injEq, and_true] at hs
  rw [← hs] at hp
  simp at hp

/-- C3 as stated fails: the context `"7", "a", 7, "b"` has even length and two different
keys, the string `"7"` and the number `7`, but both are filed under the name `"7"`; the
dispatched `Params` map is the single binding of `"7"` to `"b"`, so the key `"7"` is not
bound to `"a"`, the value that follows it. -/
theorem Handle_params_of_context_counterexample :
    (Context clashError).length % 2 = 0 ∧ Context clashError ≠ [] ∧
    (keyvals.rawKeys (Context clashError)).Nodup ∧
    sentNotices ((Handle (recorder none) asyncHandler clashError startWorld).2.callsSince
      startWorld) = [⟨"boom", [("7", Value.str "b")]⟩] ∧
    ¬ ∃ nt : gobrake.Notice,
      sentNotices ((Handle (recorder none) asyncHandler clashError startWorld).2.callsSince
        startWorld) = [nt] ∧
      ∀ i k, (Context clashError)[2 * i]? = some k →
        ∃ v, (Context clashError)[2 * i + 1]? = some v ∧
          nt.Params.get (keyvals.keyName k) = some v := by
  refine ⟨by decide, by decide, by decide, by decide, ?_⟩
  rintro ⟨nt, hs, hv⟩
  have hrun : sentNotices ((Handle (recorder none) asyncHandler clashError
      startWorld).2.callsSince startWorld) = [⟨"boom", [("7", Value.str "b")]⟩] := by decide
  rw [hrun] at hs
  simp only [List.cons.injEq, and_true] at hs
  obtain ⟨v, hv1, hv2⟩ := hv 0 (Value.str "7") rfl
  have hv3 : v = Value.str "a" := by
    have h1 : (Context clashError)[2 * 0 + 1]? = some (Value.str "a") := rfl
    rw [h1] at hv1
    exact (Option.some.inj hv1).symm
  rw [← hs, hv3] at hv2
  revert hv2
  decide

/-- C6 at a concrete run: the error with the stack trace `3, 2, 1`. -/
theorem Handle_exposes_stack_trace_witness :
    richError.stack = some [3, 2, 1] ∧ richError.exposed = none ∧
    ∃ e, noticeErrs ((Handle (recorder none) asyncHandler richError startWorld).2.callsSince
      startWorld) = [e] ∧ e.exposed = some [3, 2, 1] :=
  ⟨rfl, rfl,
    (Handle_exposes_stack_trace (recorder none) asyncHandler richError startWorld).2
      [3, 2, 1] rfl⟩

/-- C7 at two concrete runs: an error with a request and an error without one. -/
theorem Handle_passes_request_witness :
    noticeReqs ((Handle (recorder none) asyncHandler richError startWorld).2.callsSince
      startWorld) = [some ⟨"GET", "/items"⟩] ∧
    noticeReqs ((Handle (recorder none) asyncHandler plainError startWorld).2.callsSince
      startWorld) = [none] :=
  ⟨(Handle_passes_request (recorder none) asyncHandler richError startWorld).2.1 _ rfl,
    (Handle_passes_request (recorder none) asyncHandler plainError startWorld).2.2.1 rfl⟩

/-- C9 at a concrete run: a client whose `SendNotice` succeeds and one whose `SendNotice`
fails. -/
theorem Handle_discards_send_result_witness :
    ((recorder none).SendNotice 5 ⟨"boom", []⟩ 0).1.2 = none ∧
    ((recorder (some sendFailure)).SendNotice 5 ⟨"boom", []⟩ 0).1.2 = some sendFailure ∧
    Handle (recorder none) syncHandler plainError startWorld =
      Handle (recorder (some sendFailure)) syncHandler plainError startWorld ∧
    (Handle (recorder none) syncHandler plainError startWorld).1 = syncHandler :=
  ⟨rfl, rfl,
    Handle_discards_send_result (recorder none) (recorder (some sendFailure)) syncHandler
      plainError startWorld rfl rfl (fun _ _ _ => rfl)⟩

/-- C10 at two concrete runs.  With a context, the parameter the constructor took from the
request is gone from the dispatched notice; without one, the notice keeps it. -/
theorem Handle_params_witness :
    ((recorder none).Notice 5 (ExposeStackTrace richError) (HttpRequest richError).1 1
      0).1.Params = [("url", Value.str "/items")] ∧
    (sentNotices ((Handle (recorder none) asyncHandler richError startWorld).2.callsSince
      startWorld)).map Notice.Params =
        [keyvals.ToMap [.str "user", .int 7, .str "op", .str "list"]] ∧
    (sentNotices ((Handle (recorder none) asyncHandler { richError with context := [] }
      startWorld).2.callsSince startWorld)).map Notice.Params =
        [[("url", Value.str "/items")]] :=
  ⟨rfl,
    (Handle_params (recorder none) asyncHandler richError startWorld).1 (by decide),
    (Handle_params (recorder none) asyncHandler { richError with context := [] }
      startWorld).2 rfl⟩

end airbrake
